import Mathlib

/-!
Verification of the filter-and-aggregate data pipeline of the
"EDA on Suicidal Tendencies" dashboard (`src/app.py`).

The pipeline consists of:
* `load_data` (src/app.py lines 52-62): title-case the `State`, `Type`,
  `Gender` columns and drop the reserved pre-aggregated total rows;
* `filtered_df` (lines 114-120): conjunctive row filter from the sidebar
  selections;
* the summary metrics (lines 150-157) and group-by aggregates
  (lines 167, 231-242).

A table is embedded as a `List Row`; the CSV parsing step is elided, the
input of `load_data` is the already-parsed table.  Python's `str.title`
is embedded for the Basic Latin range (all data values in scope are
ASCII): a character is *cased* when it is an ASCII letter, a word starts
at a cased character preceded by a non-cased one.  Integer columns are
embedded as `Int`; the floating-point means and percentages of the
metrics row are embedded as exact `Rat` values, with `Option.none`
standing for the undefined (NaN) result of a mean or division over an
empty selection, and `Except.error` standing for a raised Python
exception.
-/

namespace SuicideDashboard

/-! ### Characters: the Basic Latin fragment of Python case mapping -/

theorem char_toNat_inj : ∀ {c d : Char}, c.toNat = d.toNat → c = d := by
  intro c d h
  exact Char.eq_of_val_eq (UInt32.ext h)

theorem char_toNat_ofNat_valid (m : Nat) (h : m.isValidChar) :
    (Char.ofNat m).toNat = m := by
  simp only [Char.ofNat, h, dite_true, Char.ofNatAux, Char.toNat]
  rfl

theorem toLower_toNat (c : Char) :
    (c.toLower).toNat = if 65 ≤ c.toNat ∧ c.toNat ≤ 90 then c.toNat + 32 else c.toNat := by
  unfold Char.toLower
  split <;> rename_i h
  · rw [if_pos (by omega)]
    exact char_toNat_ofNat_valid _ (Or.inl (by omega))
  · rw [if_neg (by omega)]

theorem toUpper_toNat (c : Char) :
    (c.toUpper).toNat = if 97 ≤ c.toNat ∧ c.toNat ≤ 122 then c.toNat - 32 else c.toNat := by
  unfold Char.toUpper
  split <;> rename_i h
  · rw [if_pos (by omega)]
    exact char_toNat_ofNat_valid _ (Or.inl (by omega))
  · rw [if_neg (by omega)]

/-- A character is cased for the purpose of `str.title`, restricted to
the Basic Latin range: an ASCII letter. -/
def isCased (c : Char) : Bool :=
  decide ((65 ≤ c.toNat ∧ c.toNat ≤ 90) ∨ (97 ≤ c.toNat ∧ c.toNat ≤ 122))

theorem isCased_toLower (c : Char) : isCased c.toLower = isCased c := by
  simp only [isCased, decide_eq_decide, toLower_toNat]
  split_ifs <;> omega

theorem isCased_toUpper (c : Char) : isCased c.toUpper = isCased c := by
  simp only [isCased, decide_eq_decide, toUpper_toNat]
  split_ifs <;> omega

theorem toLower_toLower (c : Char) : c.toLower.toLower = c.toLower := by
  apply char_toNat_inj
  simp only [toLower_toNat]
  split_ifs <;> omega

theorem toUpper_toUpper (c : Char) : c.toUpper.toUpper = c.toUpper := by
  apply char_toNat_inj
  simp only [toUpper_toNat]
  split_ifs <;> omega

/-! ### Python `str.title` on a list of characters

`pytitleAux cased l` processes `l`, where `cased` records whether the
previous character was cased: a cased character is lowercased when the
previous one was cased and uppercased otherwise; other characters pass
through and reset the word boundary. -/

def pytitleAux : Bool → List Char → List Char
  | _, [] => []
  | prevCased, c :: cs =>
    if isCased c then
      (if prevCased then c.toLower else c.toUpper) :: pytitleAux true cs
    else
      c :: pytitleAux false cs

/-- Embedding of Python `str.title()` (pandas `.str.title()`), Basic
Latin fragment. -/
def pytitle (s : String) : String :=
  ⟨pytitleAux false s.data⟩

/-! ### Data model -/

/-- One row of the CSV table.  The column `Type` of the source is named
`Type_` here because `Type` is reserved in Lean. -/
structure Row where
  State : String
  Type_ : String
  Gender : String
  Age_group : String
  Year : Int
  Total : Int
deriving DecidableEq, Repr

/-- The reserved aggregate labels dropped by `load_data`
(src/app.py line 59). -/
def statesToRemove : List String :=
  ["Total (All India)", "Total (States)", "Total (Uts)"]

/-- The per-row transformation of `load_data`: title-case `State`,
`Type` and `Gender` (src/app.py lines 56-58).  No trimming is applied
and the remaining columns are untouched. -/
def normRow (r : Row) : Row :=
  { r with
    State := pytitle r.State
    Type_ := pytitle r.Type_
    Gender := pytitle r.Gender }

/-- Embedding of `load_data` (src/app.py lines 52-62), CSV parsing elided: title-case
the three text columns, then drop rows whose `State` is a reserved total
label. -/
def load_data (df : List Row) : List Row :=
  (df.map normRow).filter (fun r => !(statesToRemove.contains r.State))

/-- The sidebar selections (src/app.py lines 82-111): lists of selected
values for the four multiselect widgets and the inclusive year range of
the slider. -/
structure FilterSpec where
  states : List String
  year_min : Int
  year_max : Int
  types : List String
  genders : List String
  age_groups : List String

/-- Embedding of `filtered_df` (src/app.py lines 114-120): a row passes when its
`State`, `Type`, `Gender`, `Age_group` are selected and its `Year` lies
in the inclusive slider range. -/
def filtered_df (df : List Row) (spec : FilterSpec) : List Row :=
  df.filter (fun r =>
    spec.states.contains r.State &&
    (decide (spec.year_min ≤ r.Year) && decide (r.Year ≤ spec.year_max)) &&
    spec.types.contains r.Type_ &&
    spec.genders.contains r.Gender &&
    spec.age_groups.contains r.Age_group)

/-! ### Aggregates and summary metrics -/

/-- The "Total Cases" metric `filtered_df['Total'].sum()` (src/app.py line 151). -/
def totalCases (t : List Row) : Int :=
  (t.map Row.Total).sum

/-- The rows of a given year. -/
def rowsOfYear (t : List Row) (y : Int) : List Row :=
  t.filter (fun r => r.Year == y)

/-- The distinct years of the table, in the ascending order pandas
`groupby` uses for its group keys. -/
def yearKeys (t : List Row) : List Int :=
  List.insertionSort (· ≤ ·) ((t.map Row.Year).dedup)

/-- The per-year sum of `Total`. -/
def yearSum (t : List Row) (y : Int) : Int :=
  totalCases (rowsOfYear t y)

/-- Embedding of `yearly_data = filtered_df.groupby('Year')['Total'].sum()`
(src/app.py line 167): year keys ascending, each with its summed
`Total`. -/
def yearly_data (t : List Row) : List (Int × Int) :=
  (yearKeys t).map (fun y => (y, yearSum t y))

/-- Mean of a list of rationals; `none` on the empty list, where pandas
produces NaN. -/
def meanQ (l : List Rat) : Option Rat :=
  if l.length = 0 then none else some (l.sum / l.length)

/-- The per-year mean of `Total` (`groupby('Year')['Total'].mean()`),
for a year key present in the table. -/
def yearMeanQ (t : List Row) (y : Int) : Rat :=
  ((rowsOfYear t y).map (fun r => (r.Total : Rat))).sum / ((rowsOfYear t y).length : Rat)

/-- The "Avg Annual Cases" metric as the source computes it
(src/app.py line 153):
`filtered_df.groupby('Year')['Total'].mean().mean()`, the mean over the
year keys of the per-year means of `Total`. -/
def avgAnnualCases (t : List Row) : Option Rat :=
  meanQ ((yearKeys t).map (yearMeanQ t))

/-- The "Avg Annual Cases" statistic as the specification words it: sum
`Total` by year, then take the mean of those per-year sums.  Stated for
comparison with `avgAnnualCases`. -/
def specAvgAnnualCases (t : List Row) : Option Rat :=
  meanQ ((yearKeys t).map (fun y => (yearSum t y : Rat)))

/-- The rows of a given state. -/
def rowsOfState (t : List Row) (s : String) : List Row :=
  t.filter (fun r => r.State == s)

/-- Lexicographic comparison of character lists by code point, the
order Python (and hence pandas) uses to compare and sort strings. -/
def lexLe : List Char → List Char → Bool
  | [], _ => true
  | _ :: _, [] => false
  | c :: cs, d :: ds => if c = d then lexLe cs ds else decide (c < d)

/-- The string order pandas sorts group keys in: code-point
lexicographic.  `pdLe_iff_le` below shows it agrees with the standard
order on `String`. -/
def pdLe (a b : String) : Prop :=
  lexLe a.data b.data = true

instance : DecidableRel pdLe :=
  fun a b => inferInstanceAs (Decidable (lexLe a.data b.data = true))

/-- The distinct states of the table, in the ascending order pandas
`groupby` uses for its group keys. -/
def stateKeys (t : List Row) : List String :=
  List.insertionSort pdLe ((t.map Row.State).dedup)

/-- The per-state sum of `Total`. -/
def stateSum (t : List Row) (s : String) : Int :=
  totalCases (rowsOfState t s)

/-- Embedding of `filtered_df.groupby('State')['Total'].sum()` (src/app.py lines 155
and 231): state keys ascending, each with its summed `Total`. -/
def state_group_sums (t : List Row) : List (String × Int) :=
  (stateKeys t).map (fun s => (s, stateSum t s))

/-- First entry holding the maximal second component: pandas `idxmax`
keeps the first occurrence of the maximum. -/
def argmaxFirst : List (String × Int) → Option (String × Int)
  | [] => none
  | p :: ps =>
    match argmaxFirst ps with
    | none => some p
    | some q => if q.2 > p.2 then some q else some p

/-- The "Most Affected State" metric (src/app.py line 155):
`filtered_df.groupby('State')['Total'].sum().idxmax()`.  On an empty
table pandas `idxmax` raises `ValueError`, embedded as `Except.error`. -/
def mostAffectedState (t : List Row) : Except String String :=
  match argmaxFirst (state_group_sums t) with
  | some p => Except.ok p.1
  | none => Except.error "attempt to get argmax of an empty sequence"

/-- The "Gender Ratio" metric (src/app.py line 157): the percentage of
the summed `Total` carried by rows with `Gender == 'Male'`; `none` when
the overall sum is zero, where numpy division yields NaN. -/
def malePercentage (t : List Row) : Option Rat :=
  if totalCases t = 0 then none
  else some (totalCases (t.filter (fun r => r.Gender == "Male")) / (totalCases t : Rat) * 100)

/-- The static state-name translation table for the choropleth join
(src/app.py lines 233-241). -/
def state_name_mapping : List (String × String) :=
  [("Odisha", "Orissa"),
   ("Jammu & Kashmir", "Jammu and Kashmir"),
   ("A & N Islands", "Andaman and Nicobar"),
   ("D & N Haveli", "Dadra and Nagar Haveli"),
   ("Daman & Diu", "Daman and Diu"),
   ("Delhi (Ut)", "Delhi"),
   ("Uttarakhand", "Uttaranchal")]

/-- The substitution `map_data['State'].replace(state_name_mapping)`
applies to one name (src/app.py line 242): a mapped name becomes its
image, an unmapped name passes through unchanged. -/
def replaceState (s : String) : String :=
  match state_name_mapping.lookup s with
  | some v => v
  | none => s

/-- Embedding of `map_data` (src/app.py lines 231-242): the by-state aggregate with
the geographic name substitution applied to its keys. -/
def map_data (t : List Row) : List (String × Int) :=
  (state_group_sums t).map (fun p => (replaceState p.1, p.2))

/-- C3: a row is retained by `filtered_df` iff it belongs to the input
table and satisfies all five selection conditions conjunctively (State,
inclusive Year range, Type, Gender, Age_group); consequently an empty
selection list for any of the four multiselects yields an empty filtered
table. -/
theorem filtered_df_retains_iff :
    (∀ (df : List Row) (spec : FilterSpec) (r : Row),
      r ∈ filtered_df df spec ↔
        r ∈ df ∧ r.State ∈ spec.states ∧
        (spec.year_min ≤ r.Year ∧ r.Year ≤ spec.year_max) ∧
        r.Type_ ∈ spec.types ∧ r.Gender ∈ spec.genders ∧
        r.Age_group ∈ spec.age_groups) ∧
    (∀ (df : List Row) (spec : FilterSpec),
      (spec.states = [] ∨ spec.types = [] ∨ spec.genders = [] ∨ spec.age_groups = []) →
      filtered_df df spec = []) := by
  have hmem : ∀ (df : List Row) (spec : FilterSpec) (r : Row),
      r ∈ filtered_df df spec ↔
        r ∈ df ∧ r.State ∈ spec.states ∧
        (spec.year_min ≤ r.Year ∧ r.Year ≤ spec.year_max) ∧
        r.Type_ ∈ spec.types ∧ r.Gender ∈ spec.genders ∧
        r.Age_group ∈ spec.age_groups := by
    intro df spec r
    simp [filtered_df, List.mem_filter, List.contains, and_assoc]
  refine ⟨hmem, ?_⟩
  intro df spec h
  rw [List.eq_nil_iff_forall_not_mem]
  intro r hr
  have hall := (hmem df spec r).mp hr
  rcases h with h | h | h | h <;> simp [h] at hall

/-- Witness for C3 at a concrete table and filter. -/
theorem filtered_df_retains_iff_witness :
    filtered_df
      [{ State := "Kerala", Type_ := "Causes", Gender := "Male",
         Age_group := "15-29", Year := 2019, Total := 10 }]
      { states := ["Kerala"], year_min := 2019, year_max := 2019,
        types := ["Causes"], genders := [], age_groups := ["15-29"] } = [] :=
  filtered_df_retains_iff.2 _ _ (Or.inr (Or.inr (Or.inl rfl)))

/-- C4: an input record whose `State`, after the title-case
normalization, equals one of the three reserved aggregate labels is
absent from the output of `load_data`, whatever the original casing of
the text. -/
theorem reserved_totals_absent (df : List Row) (r : Row)
    (h : pytitle r.State ∈ statesToRemove) : normRow r ∉ load_data df := by
  intro hmem
  rw [load_data, List.mem_filter] at hmem
  have hok := hmem.2
  simp only [normRow, Bool.not_eq_true', List.contains, List.elem_eq_mem,
    decide_eq_false_iff_not] at hok
  exact hok h

/-- Witness for C4 at the three example casings of the reserved
labels. -/
theorem reserved_totals_absent_witness :
    (pytitle "total (all india)" ∈ statesToRemove ∧
      normRow { State := "total (all india)", Type_ := "c", Gender := "g",
                Age_group := "0-14", Year := 2019, Total := 1 } ∉
        load_data [{ State := "total (all india)", Type_ := "c", Gender := "g",
                     Age_group := "0-14", Year := 2019, Total := 1 }]) ∧
    (pytitle "TOTAL (STATES)" ∈ statesToRemove ∧
      normRow { State := "TOTAL (STATES)", Type_ := "c", Gender := "g",
                Age_group := "0-14", Year := 2019, Total := 1 } ∉
        load_data [{ State := "TOTAL (STATES)", Type_ := "c", Gender := "g",
                     Age_group := "0-14", Year := 2019, Total := 1 }]) ∧
    (pytitle "Total (UTs)" ∈ statesToRemove ∧
      normRow { State := "Total (UTs)", Type_ := "c", Gender := "g",
                Age_group := "0-14", Year := 2019, Total := 1 } ∉
        load_data [{ State := "Total (UTs)", Type_ := "c", Gender := "g",
                     Age_group := "0-14", Year := 2019, Total := 1 }]) :=
  ⟨⟨by decide, reserved_totals_absent _ _ (by decide)⟩,
   ⟨by decide, reserved_totals_absent _ _ (by decide)⟩,
   ⟨by decide, reserved_totals_absent _ _ (by decide)⟩⟩

/-! ### Case-congruence of the title-case map -/

theorem toUpper_congr_of_toLower_eq {c1 c2 : Char} (h : c1.toLower = c2.toLower) :
    c1.toUpper = c2.toUpper := by
  have hn := congrArg Char.toNat h
  rw [toLower_toNat, toLower_toNat] at hn
  apply char_toNat_inj
  rw [toUpper_toNat, toUpper_toNat]
  split_ifs at hn ⊢ <;> omega

theorem isCased_congr_of_toLower_eq {c1 c2 : Char} (h : c1.toLower = c2.toLower) :
    isCased c1 = isCased c2 := by
  have hn := congrArg Char.toNat h
  rw [toLower_toNat, toLower_toNat] at hn
  simp only [isCased, decide_eq_decide]
  split_ifs at hn <;> omega

theorem pytitleAux_congr : ∀ (l1 l2 : List Char) (b : Bool),
    l1.map Char.toLower = l2.map Char.toLower → pytitleAux b l1 = pytitleAux b l2
  | [], [], _, _ => rfl
  | [], _ :: _, _, h => by simp at h
  | _ :: _, [], _, h => by simp at h
  | c1 :: t1, c2 :: t2, b, h => by
    rw [List.map_cons, List.map_cons, List.cons.injEq] at h
    obtain ⟨hc, ht⟩ := h
    unfold pytitleAux
    rw [isCased_congr_of_toLower_eq hc]
    by_cases hcase : isCased c2
    · rw [if_pos hcase, if_pos hcase, pytitleAux_congr t1 t2 true ht]
      cases b with
      | true => rw [if_pos rfl, if_pos rfl, hc]
      | false =>
        rw [if_neg (by simp), if_neg (by simp), toUpper_congr_of_toLower_eq hc]
    · rw [if_neg (by simp [hcase]), if_neg (by simp [hcase]),
        pytitleAux_congr t1 t2 false ht]
      congr 1
      have := congrArg Char.toNat hc
      rw [toLower_toNat, toLower_toNat] at this
      have hcase1 : isCased c1 = false := by
        rw [isCased_congr_of_toLower_eq hc, eq_false_of_ne_true hcase]
      apply char_toNat_inj
      simp only [isCased, decide_eq_true_eq] at hcase hcase1
      split_ifs at this <;> omega

/-- Trim-then-title-case, the field transformation claimed by the
specification for `load_data` (trimming modelled as dropping leading
and trailing whitespace characters).  Stated for comparison with the
source's actual transformation. -/
def specTrimTitle (s : String) : String :=
  pytitle ⟨((s.data.dropWhile Char.isWhitespace).reverse.dropWhile
    Char.isWhitespace).reverse⟩

/-- Counterexample to C5: `load_data` does not trim surrounding
whitespace.  On a record with `State` value " kerala" the output value
is " Kerala", while trim-then-title-case gives "Kerala". -/
theorem normalize_no_trim_counterexample :
    (load_data [{ State := " kerala", Type_ := "causes", Gender := " male ",
                  Age_group := "0-14", Year := 2019, Total := 3 }]).map Row.State
        = [" Kerala"] ∧
    specTrimTitle " kerala" = "Kerala" ∧
    (" Kerala" : String) ≠ specTrimTitle " kerala" :=
  ⟨by decide, by decide, by decide⟩

/-- C5 (amended): `load_data` transforms each of `State`, `Type`,
`Gender` by title-casing only, with no trimming of surrounding
whitespace; values differing only in letter case (e.g. "male" and
"Male") still become equal in the normalized table. -/
theorem normalize_titlecases_fields :
    (∀ (df : List Row) (r : Row), r ∈ df → pytitle r.State ∉ statesToRemove →
      normRow r ∈ load_data df) ∧
    (∀ r : Row, (normRow r).State = pytitle r.State ∧
      (normRow r).Type_ = pytitle r.Type_ ∧
      (normRow r).Gender = pytitle r.Gender) ∧
    (∀ s1 s2 : String, s1.data.map Char.toLower = s2.data.map Char.toLower →
      pytitle s1 = pytitle s2) := by
  refine ⟨?_, fun r => ⟨rfl, rfl, rfl⟩, fun s1 s2 h => ?_⟩
  · intro df r hmem hkeep
    rw [load_data, List.mem_filter]
    refine ⟨List.mem_map_of_mem _ hmem, ?_⟩
    simp only [normRow, Bool.not_eq_true', List.contains, List.elem_eq_mem,
      decide_eq_false_iff_not]
    exact hkeep
  · unfold pytitle
    rw [pytitleAux_congr s1.data s2.data false h]

/-- Witness for C5 (amended) at a concrete record and the example pair
"male" / "Male". -/
theorem normalize_titlecases_fields_witness :
    normRow { State := "kerala", Type_ := "causes", Gender := "male",
              Age_group := "0-14", Year := 2019, Total := 3 } ∈
      load_data [{ State := "kerala", Type_ := "causes", Gender := "male",
                   Age_group := "0-14", Year := 2019, Total := 3 }] ∧
    pytitle "male" = pytitle "Male" :=
  ⟨normalize_titlecases_fields.1 _ _ (by decide) (by decide),
   normalize_titlecases_fields.2.2 "male" "Male" (by decide)⟩

/-! ### Idempotence of normalization -/

theorem pytitleAux_cons (b : Bool) (c : Char) (cs : List Char) :
    pytitleAux b (c :: cs) =
      if isCased c then
        (if b then c.toLower else c.toUpper) :: pytitleAux true cs
      else c :: pytitleAux false cs := rfl

theorem pytitleAux_idem : ∀ (l : List Char) (b : Bool),
    pytitleAux b (pytitleAux b l) = pytitleAux b l
  | [], _ => rfl
  | c :: cs, b => by
    by_cases hc : isCased c <;> cases b <;>
      simp [pytitleAux_cons, hc, isCased_toLower, isCased_toUpper,
        toLower_toLower, toUpper_toUpper,
        pytitleAux_idem cs true, pytitleAux_idem cs false]

theorem pytitle_idem (s : String) : pytitle (pytitle s) = pytitle s := by
  unfold pytitle
  exact congrArg String.mk (pytitleAux_idem s.data false)

theorem normRow_idem (r : Row) : normRow (normRow r) = normRow r := by
  simp [normRow, pytitle_idem]

/-- C7: normalization is idempotent; applying `load_data` to its own
output changes nothing. -/
theorem load_data_idempotent (df : List Row) :
    load_data (load_data df) = load_data df := by
  have hfix : ∀ r ∈ load_data df, normRow r = r := by
    intro r hr
    rw [load_data, List.mem_filter] at hr
    obtain ⟨r0, -, rfl⟩ := List.mem_map.mp hr.1
    exact normRow_idem r0
  have hmap : (load_data df).map normRow = load_data df := by
    rw [List.map_congr_left hfix, List.map_id']
  have hkeep : ∀ r ∈ load_data df, (!(statesToRemove.contains r.State)) = true := by
    intro r hr
    rw [load_data, List.mem_filter] at hr
    exact hr.2
  calc load_data (load_data df)
      = ((load_data df).map normRow).filter
          (fun r => !(statesToRemove.contains r.State)) := rfl
    _ = (load_data df).filter (fun r => !(statesToRemove.contains r.State)) := by
          rw [hmap]
    _ = load_data df := List.filter_eq_self.mpr hkeep

/-- C10: `load_data` passes `Age_group`, `Year` and `Total` through
unchanged (in particular `Age_group` is neither trimmed nor
title-cased), and the retained rows appear in input order: the output is
exactly the input's retained sublist, each row transformed by the
field-preserving `normRow`. -/
theorem normalize_preserves_frame :
    (∀ df : List Row, load_data df =
      (df.filter (fun r => !(statesToRemove.contains (pytitle r.State)))).map normRow) ∧
    (∀ r : Row, (normRow r).Age_group = r.Age_group ∧
      (normRow r).Year = r.Year ∧ (normRow r).Total = r.Total) := by
  refine ⟨fun df => ?_, fun r => ⟨rfl, rfl, rfl⟩⟩
  rw [load_data, List.filter_map]
  rfl

/-! ### Conservation of the grouped sums -/

theorem totalCases_filter_partition (p : Row → Bool) : ∀ t : List Row,
    totalCases (t.filter p) + totalCases (t.filter (fun r => !(p r))) = totalCases t
  | [] => rfl
  | r :: t => by
    have ih := totalCases_filter_partition p t
    by_cases hp : p r <;>
      simp [List.filter_cons, hp, totalCases] at ih ⊢ <;> omega

theorem sum_yearSum_over_keys : ∀ (keys : List Int) (t : List Row), keys.Nodup →
    (∀ r ∈ t, r.Year ∈ keys) →
    (keys.map (fun y => yearSum t y)).sum = totalCases t
  | [], t, _, hall => by
    cases t with
    | nil => rfl
    | cons r t => exact absurd (hall r (List.mem_cons_self r t)) (List.not_mem_nil _)
  | y :: ks, t, hnd, hall => by
    have hynotin : y ∉ ks := (List.nodup_cons.mp hnd).1
    have hpart := totalCases_filter_partition (fun r => r.Year == y) t
    have hall' : ∀ r ∈ t.filter (fun r => !(r.Year == y)), r.Year ∈ ks := by
      intro r hr
      rw [List.mem_filter] at hr
      have hy : r.Year ≠ y := by simpa using hr.2
      rcases List.mem_cons.mp (hall r hr.1) with h | h
      · exact absurd h hy
      · exact h
    have ih := sum_yearSum_over_keys ks (t.filter (fun r => !(r.Year == y)))
      (List.nodup_cons.mp hnd).2 hall'
    have hky : ∀ k ∈ ks, yearSum t k =
        yearSum (t.filter (fun r => !(r.Year == y))) k := by
      intro k hk
      have hkny : k ≠ y := fun h => hynotin (h ▸ hk)
      unfold yearSum rowsOfYear
      rw [List.filter_filter]
      congr 1
      apply List.filter_congr
      intro r _
      by_cases hr : r.Year = k
      · simp [hr, hkny]
      · simp [hr]
    calc ((y :: ks).map (fun k => yearSum t k)).sum
        = yearSum t y + (ks.map (fun k => yearSum t k)).sum := by
          rw [List.map_cons, List.sum_cons]
      _ = yearSum t y +
            (ks.map (fun k => yearSum (t.filter (fun r => !(r.Year == y))) k)).sum := by
          rw [List.map_congr_left hky]
      _ = yearSum t y + totalCases (t.filter (fun r => !(r.Year == y))) := by rw [ih]
      _ = totalCases t := hpart

/-- C8: aggregation is conservative; summing `Total` over the by-year
aggregate `yearly_data` of a filtered table equals summing `Total` over
that filtered table itself. -/
theorem yearly_data_sum_conservation (df : List Row) (spec : FilterSpec) :
    ((yearly_data (filtered_df df spec)).map Prod.snd).sum
      = totalCases (filtered_df df spec) := by
  set t := filtered_df df spec
  have hmaps : (yearly_data t).map Prod.snd = (yearKeys t).map (fun y => yearSum t y) := by
    rw [yearly_data, List.map_map]
    rfl
  rw [hmaps]
  apply sum_yearSum_over_keys
  · exact ((List.perm_insertionSort _ _).nodup_iff).mpr (List.nodup_dedup _)
  · intro r hr
    exact (List.mem_insertionSort _).mpr (List.mem_dedup.mpr (List.mem_map_of_mem _ hr))

/-! ### The pandas string order agrees with the standard one -/

theorem lexLe_iff : ∀ (l₁ l₂ : List Char), lexLe l₁ l₂ = true ↔ ¬ l₂ < l₁
  | [], l₂ => by
    simp only [lexLe]
    exact iff_of_true trivial (List.Lex.not_nil_right _ _)
  | c :: cs, [] => by
    simp only [lexLe]
    constructor
    · intro h
      cases h
    · intro h
      exact absurd (List.Lex.nil) h
  | c :: cs, d :: ds => by
    have hiff : (d :: ds) < (c :: cs) ↔ d < c ∨ (d = c ∧ ds < cs) := by
      constructor
      · intro h
        cases h with
        | rel h => exact Or.inl h
        | cons h => exact Or.inr ⟨rfl, h⟩
      · rintro (h | ⟨rfl, h⟩)
        · exact List.Lex.rel h
        · exact List.Lex.cons h
    by_cases hcd : c = d
    · subst hcd
      rw [lexLe, if_pos rfl, lexLe_iff cs ds, hiff]
      simp [lt_irrefl]
    · rw [lexLe, if_neg hcd, hiff]
      have hne : d ≠ c := fun h => hcd (Eq.symm h)
      rcases lt_trichotomy c d with hlt | heq | hgt
      · simp [hlt, lt_asymm hlt, hne]
      · exact absurd heq hcd
      · simp [hgt, lt_asymm hgt, hne]

theorem pdLe_iff_le (a b : String) : pdLe a b ↔ a ≤ b := by
  rw [String.le_iff_toList_le, ← not_lt]
  exact lexLe_iff a.data b.data

instance : IsTotal String pdLe :=
  ⟨fun a b => by
    rw [pdLe_iff_le, pdLe_iff_le]
    exact le_total a b⟩

instance : IsTrans String pdLe :=
  ⟨fun a b c hab hbc => by
    rw [pdLe_iff_le] at *
    exact le_trans hab hbc⟩

/-! ### The most-affected-state metric -/

theorem argmaxFirst_cons_isSome (p : String × Int) (ps : List (String × Int)) :
    ∃ q, argmaxFirst (p :: ps) = some q := by
  cases harg : argmaxFirst ps with
  | none => exact ⟨p, by simp [argmaxFirst, harg]⟩
  | some q =>
    by_cases h : q.2 > p.2
    · exact ⟨q, by simp [argmaxFirst, harg, h]⟩
    · exact ⟨p, by simp [argmaxFirst, harg, h]⟩

theorem argmaxFirst_spec : ∀ (l : List (String × Int)),
    l.Pairwise (fun a b => a.1 ≤ b.1 ∧ a.1 ≠ b.1) → ∀ p, argmaxFirst l = some p →
    p ∈ l ∧ (∀ q ∈ l, q.2 ≤ p.2) ∧ (∀ q ∈ l, q.2 = p.2 → p.1 ≤ q.1)
  | [], _, p, hp => by simp [argmaxFirst] at hp
  | a :: l', hpw, p, hp => by
    obtain ⟨hhead, htail⟩ := List.pairwise_cons.mp hpw
    cases harg : argmaxFirst l' with
    | none =>
      have hl' : l' = [] := by
        cases l' with
        | nil => rfl
        | cons b l'' =>
          obtain ⟨q, hq⟩ := argmaxFirst_cons_isSome b l''
          rw [hq] at harg
          exact absurd harg (by simp)
      subst hl'
      have hpa : p = a := by
        simp [argmaxFirst] at hp
        exact hp.symm
      subst hpa
      refine ⟨List.mem_cons_self _ _, ?_, ?_⟩
      · intro q hq
        rw [List.mem_singleton.mp hq]
      · intro q hq _
        rw [List.mem_singleton.mp hq]
    | some q =>
      obtain ⟨hqmem, hqmax, hqtie⟩ := argmaxFirst_spec l' htail q harg
      have hp' : (if q.2 > a.2 then some q else some a) = some p := by
        rw [← hp]
        simp [argmaxFirst, harg]
      by_cases hgt : q.2 > a.2
      · rw [if_pos hgt] at hp'
        obtain rfl : q = p := Option.some.injEq .. ▸ hp'
        refine ⟨List.mem_cons_of_mem _ hqmem, ?_, ?_⟩
        · intro q' hq'
          rcases List.mem_cons.mp hq' with rfl | hq'
          · exact le_of_lt hgt
          · exact hqmax q' hq'
        · intro q' hq' heq
          rcases List.mem_cons.mp hq' with rfl | hq'
          · omega
          · exact hqtie q' hq' heq
      · rw [if_neg hgt] at hp'
        obtain rfl : a = p := Option.some.injEq .. ▸ hp'
        refine ⟨List.mem_cons_self _ _, ?_, ?_⟩
        · intro q' hq'
          rcases List.mem_cons.mp hq' with rfl | hq'
          · exact le_refl _
          · exact le_trans (hqmax q' hq') (by omega)
        · intro q' hq' _
          rcases List.mem_cons.mp hq' with rfl | hq'
          · exact le_refl _
          · exact (hhead q' hq').1

theorem stateKeys_pairwise (t : List Row) :
    (stateKeys t).Pairwise (fun a b => a ≤ b ∧ a ≠ b) :=
  ((List.sorted_insertionSort pdLe _).and
    (((List.perm_insertionSort pdLe _).nodup_iff).mpr (List.nodup_dedup _))).imp
    (fun h => ⟨(pdLe_iff_le _ _).mp h.1, h.2⟩)

theorem mem_stateKeys_iff (t : List Row) (s : String) :
    s ∈ stateKeys t ↔ s ∈ t.map Row.State := by
  rw [stateKeys, List.mem_insertionSort _, List.mem_dedup]

/-- C6: on a nonempty filtered table, the "Most Affected State" metric
returns the state whose grouped sum of `Total` is maximal; when several
states share the maximal sum, the one first in ascending alphabetical
(code-point) order of state name is returned. -/
theorem mostAffectedState_spec (df : List Row) (spec : FilterSpec)
    (hne : filtered_df df spec ≠ []) :
    ∃ s : String, mostAffectedState (filtered_df df spec) = Except.ok s ∧
      s ∈ (filtered_df df spec).map Row.State ∧
      (∀ s' ∈ (filtered_df df spec).map Row.State,
        stateSum (filtered_df df spec) s' ≤ stateSum (filtered_df df spec) s) ∧
      (∀ s' ∈ (filtered_df df spec).map Row.State,
        stateSum (filtered_df df spec) s' = stateSum (filtered_df df spec) s →
        s ≤ s') := by
  set t := filtered_df df spec with ht
  have hkeys_ne : stateKeys t ≠ [] := by
    intro hnil
    rcases List.exists_mem_of_ne_nil t hne with ⟨r, hr⟩
    have := (mem_stateKeys_iff t r.State).mpr (List.mem_map_of_mem _ hr)
    rw [hnil] at this
    exact List.not_mem_nil _ this
  have hsgs_pw : (state_group_sums t).Pairwise (fun a b => a.1 ≤ b.1 ∧ a.1 ≠ b.1) :=
    (stateKeys_pairwise t).map _ (fun a b h => h)
  obtain ⟨k, ks, hcons⟩ := List.exists_cons_of_ne_nil hkeys_ne
  have hsgs_cons : state_group_sums t =
      (k, stateSum t k) :: ks.map (fun s => (s, stateSum t s)) := by
    rw [state_group_sums, hcons, List.map_cons]
  obtain ⟨p, hp⟩ := argmaxFirst_cons_isSome (k, stateSum t k)
    (ks.map (fun s => (s, stateSum t s)))
  have hp' : argmaxFirst (state_group_sums t) = some p := by rw [hsgs_cons, hp]
  obtain ⟨hpmem, hpmax, hptie⟩ := argmaxFirst_spec _ hsgs_pw p hp'
  obtain ⟨s0, hs0, rfl⟩ := List.mem_map.mp hpmem
  refine ⟨s0, ?_, ?_, ?_, ?_⟩
  · rw [mostAffectedState, hp']
  · exact (mem_stateKeys_iff t s0).mp hs0
  · intro s' hs'
    exact hpmax _ (List.mem_map_of_mem _ ((mem_stateKeys_iff t s').mpr hs'))
  · intro s' hs' heq
    exact hptie _ (List.mem_map_of_mem _ ((mem_stateKeys_iff t s').mpr hs')) heq

/-- The two-state table used in the C6 witness: "Goa" and "Bihar" tie
at the maximal per-state sum. -/
def tieTable : List Row :=
  [{ State := "Goa", Type_ := "c", Gender := "Male",
     Age_group := "0-14", Year := 2019, Total := 7 },
   { State := "Bihar", Type_ := "c", Gender := "Male",
     Age_group := "0-14", Year := 2019, Total := 7 }]

/-- The all-inclusive filter used in the C6 witness. -/
def tieSpec : FilterSpec :=
  { states := ["Goa", "Bihar"], year_min := 2019, year_max := 2019,
    types := ["c"], genders := ["Male"], age_groups := ["0-14"] }

/-- Witness for C6: on `tieTable` the metric exists and, concretely,
evaluates to "Bihar", the alphabetically first of the two tied
states. -/
theorem mostAffectedState_spec_witness :
    (∃ s : String, mostAffectedState (filtered_df tieTable tieSpec) = Except.ok s ∧
      s ∈ (filtered_df tieTable tieSpec).map Row.State ∧
      (∀ s' ∈ (filtered_df tieTable tieSpec).map Row.State,
        stateSum (filtered_df tieTable tieSpec) s' ≤
          stateSum (filtered_df tieTable tieSpec) s) ∧
      (∀ s' ∈ (filtered_df tieTable tieSpec).map Row.State,
        stateSum (filtered_df tieTable tieSpec) s' =
          stateSum (filtered_df tieTable tieSpec) s → s ≤ s')) ∧
    argmaxFirst (state_group_sums (filtered_df tieTable tieSpec)) =
      some ("Bihar", 7) :=
  ⟨mostAffectedState_spec tieTable tieSpec (by decide), by decide⟩

/-! ### The Avg-Annual-Cases formula -/

/-- A three-row table separating the two candidate formulas for
"Avg Annual Cases": year 2000 has totals 10 and 20 (sum 30, mean 15),
year 2001 has total 30 (sum 30, mean 30). -/
def meansTable : List Row :=
  [{ State := "Kerala", Type_ := "Causes", Gender := "Male",
     Age_group := "0-14", Year := 2000, Total := 10 },
   { State := "Kerala", Type_ := "Causes", Gender := "Female",
     Age_group := "0-14", Year := 2000, Total := 20 },
   { State := "Kerala", Type_ := "Causes", Gender := "Male",
     Age_group := "0-14", Year := 2001, Total := 30 }]

/-- C1: the source's "Avg Annual Cases" metric
(`groupby('Year')['Total'].mean().mean()`) is the mean of the per-year
means, not the mean of the per-year sums demanded by the specification.
On `meansTable` the source computes 22.5 while the mean of per-year sums
is 30. -/
theorem avgAnnualCases_is_mean_of_means :
    avgAnnualCases meansTable = some (45 / 2 : Rat) ∧
    specAvgAnnualCases meansTable = some 30 ∧
    (45 / 2 : Rat) ≠ 30 := by
  have hkeys : yearKeys meansTable = [2000, 2001] := by decide
  have hm0 : yearMeanQ meansTable 2000 = 15 := by
    have h : rowsOfYear meansTable 2000 = [meansTable[0], meansTable[1]] := by decide
    rw [yearMeanQ, h]
    norm_num [meansTable]
  have hm1 : yearMeanQ meansTable 2001 = 30 := by
    have h : rowsOfYear meansTable 2001 = [meansTable[2]] := by decide
    rw [yearMeanQ, h]
    norm_num [meansTable]
  have hs0 : yearSum meansTable 2000 = 30 := by decide
  have hs1 : yearSum meansTable 2001 = 30 := by decide
  refine ⟨?_, ?_, by norm_num⟩
  · rw [avgAnnualCases, hkeys, List.map_cons, List.map_cons, List.map_nil,
      hm0, hm1, meanQ]
    norm_num
  · rw [specAvgAnnualCases, hkeys, List.map_cons, List.map_cons, List.map_nil,
      hs0, hs1, meanQ]
    norm_num

/-! ### Behaviour of the metrics on an empty filtered table -/

/-- A one-row table whose single year 2000 lies outside the year range
of `excludingSpec`. -/
def excludedTable : List Row :=
  [{ State := "Kerala", Type_ := "Causes", Gender := "Male",
     Age_group := "0-14", Year := 2000, Total := 10 }]

/-- A filter whose year range (1990-1991) excludes every row of
`excludedTable`. -/
def excludingSpec : FilterSpec :=
  { states := ["Kerala"], year_min := 1990, year_max := 1991,
    types := ["Causes"], genders := ["Male"], age_groups := ["0-14"] }

/-- C2: on an all-excluding filter the filtered table is empty; the
total sum is 0 and the mean and percentage are NaN (undefined), but the
"Most Affected State" lookup raises (`idxmax` of an empty sequence)
instead of returning an explicit no-data value. -/
theorem empty_filter_metrics :
    filtered_df excludedTable excludingSpec = [] ∧
    totalCases (filtered_df excludedTable excludingSpec) = 0 ∧
    avgAnnualCases (filtered_df excludedTable excludingSpec) = none ∧
    malePercentage (filtered_df excludedTable excludingSpec) = none ∧
    mostAffectedState (filtered_df excludedTable excludingSpec) =
      Except.error "attempt to get argmax of an empty sequence" :=
  ⟨by decide, by decide, by rfl, by rfl, by rfl⟩

/-! ### Geographic name reconciliation -/

/-- C9: the map-view state-name reconciliation is a pure lookup
substitution: every pair of the by-state aggregate reappears in
`map_data` with the substitution applied to its key; a name present in
the static mapping is replaced by its image, a name absent from it
passes through unchanged; in particular "Odisha" becomes "Orissa",
"Uttarakhand" becomes "Uttaranchal" and "Kerala" is left unchanged. -/
theorem geo_reconciliation_lookup :
    (∀ (t : List Row) (p : String × Int), p ∈ state_group_sums t →
      (replaceState p.1, p.2) ∈ map_data t) ∧
    (∀ (s v : String), state_name_mapping.lookup s = some v → replaceState s = v) ∧
    (∀ s : String, state_name_mapping.lookup s = none → replaceState s = s) ∧
    replaceState "Odisha" = "Orissa" ∧
    replaceState "Uttarakhand" = "Uttaranchal" ∧
    replaceState "Kerala" = "Kerala" := by
  refine ⟨?_, ?_, ?_, by decide, by decide, by decide⟩
  · intro t p hp
    exact List.mem_map_of_mem _ hp
  · intro s v h
    rw [replaceState, h]
  · intro s h
    rw [replaceState, h]

/-- Witness for C9 at a mapped name, an unmapped name and a concrete
aggregate row. -/
theorem geo_reconciliation_lookup_witness :
    (replaceState "Odisha", (3 : Int)) ∈
      map_data [{ State := "Odisha", Type_ := "c", Gender := "Male",
                  Age_group := "0-14", Year := 2019, Total := 3 }] ∧
    replaceState "Odisha" = "Orissa" ∧
    replaceState "Kerala" = "Kerala" :=
  ⟨geo_reconciliation_lookup.1 _ ("Odisha", 3) (by decide),
   geo_reconciliation_lookup.2.1 "Odisha" "Orissa" (by decide),
   geo_reconciliation_lookup.2.2.1 "Kerala" (by decide)⟩

end SuicideDashboard
